import Mathlib

/-!
# Verification of the ch58x-autoota-flashtool AutoOTA protocol engine

Shallow embedding of the AutoOTA client (`AutoOTACommand.py`, `AutoOTAHelper.py`,
`flashtool.py`): the command model (validation, wire encoding, payload and result
handling), the authenticated command exchange, the OTA status decode, the chunked
read/write loops, the completion-poll loop, and the dual-bank selection of the
composite flash workflow.

Bytes are modelled as `List Nat` (each element a byte value `< 256` where relevant),
Python integers as `Int`, and raisable Python code as `Except PyExc`.
-/

namespace AutoOTA

/-- A Python runtime value, restricted to the types the tool passes in `kwargs`. -/
inductive PyVal where
  | int (i : Int)
  | bytes (b : List Nat)
  | str (s : String)
deriving DecidableEq, Repr

/-- The Python exception classes raised or caught by the tool.  `bleakError` and
`connectionLost` model the external transport collaborator: per the spec, an
attribute-level transport failure surfaces as the transport library error class
(`BleakError`), while a device-initiated disconnect during an in-flight operation
surfaces as a generic connection-lost exception outside that class (this is the
case `flashtool.py` labels "Connection lost" in its blanket `except`). -/
inductive PyExc where
  | valueError (msg : String)
  | typeError (msg : String)
  | runtimeError (msg : String)
  | structError (msg : String)
  | keyError (key : String)
  | indexError
  | bleakError (msg : String)
  | connectionLost
deriving DecidableEq, Repr

/-- The keyword arguments of an `AutoOTABaseCommand`: `kwargs.get(k)` is `none`
when the key is absent, otherwise the stored value. -/
structure Kwargs where
  address : Option PyVal := none
  length : Option PyVal := none
  data : Option PyVal := none
deriving DecidableEq, Repr

/-- The six command classes of `AutoOTACommand.py`, each holding its `kwargs`. -/
inductive Command where
  | read (kw : Kwargs)
  | program (kw : Kwargs)
  | erase (kw : Kwargs)
  | verify (kw : Kwargs)
  | reboot (kw : Kwargs)
  | confirm (kw : Kwargs)
deriving DecidableEq, Repr

/-- The opcode constants `OTA_CMD_*`. -/
def Command.opcode : Command → Nat
  | .read _ => 0x00
  | .program _ => 0x01
  | .erase _ => 0x02
  | .verify _ => 0x03
  | .reboot _ => 0x04
  | .confirm _ => 0x05

/-- Shared body of `cmd_validate` for Read/Erase/Verify: `address` must be
present and an `int`, `length` must be present and a positive `int`.
Mirrors the four `if` statements of the source, in order. -/
def validate_addr_length (cname : String) (kw : Kwargs) : Except PyExc Unit :=
  match kw.address with
  | none => .error (.valueError (cname ++ " requires address parameter."))
  | some a =>
    match a with
    | .int _ =>
      match kw.length with
      | none => .error (.valueError (cname ++ " requires length parameter."))
      | some l =>
        match l with
        | .int n =>
          if n ≤ 0 then
            .error (.typeError "The length parameter must be a positive integer.")
          else .ok ()
        | _ => .error (.typeError "The length parameter must be a positive integer.")
    | _ => .error (.typeError "The address parameter must be an integer.")

/-- The `cmd_validate` of each command class.  Read/Erase/Verify require `address`
(an `int`) and a positive `int` `length`; Program requires `address` (an `int`)
and `data` of type `bytes`; Reboot/Confirm inherit the base class and accept
anything.  Note the address is only checked with `isinstance(..., int)`:
no sign or range check happens here. -/
def cmd_validate : Command → Except PyExc Unit
  | .read kw => validate_addr_length "ReadCommand" kw
  | .erase kw => validate_addr_length "EraseCommand" kw
  | .verify kw => validate_addr_length "VerifyCommand" kw
  | .program kw =>
    match kw.address with
    | none => .error (.valueError "ProgramCommand requires address parameter.")
    | some a =>
      match a with
      | .int _ =>
        match kw.data with
        | none => .error (.valueError "ProgramCommand requires data parameter.")
        | some d =>
          match d with
          | .bytes _ => .ok ()
          | _ => .error (.typeError "The data parameter must be of type bytes.")
      | _ => .error (.typeError "The address parameter must be an integer.")
  | .reboot _ => .ok ()
  | .confirm _ => .ok ()

/-- Little-endian 4-byte encoding of a natural number below `2^32`
(the byte layout produced by Python `struct.pack` with format `<I`). -/
def le32 (n : Nat) : List Nat :=
  [n % 256, n / 256 % 256, n / 65536 % 256, n / 16777216 % 256]

/-- Python `struct.pack` with format `<I` applied to a `kwargs` entry: raises `KeyError`
when the key is absent, `struct.error` when the value is not an `int` or is
outside the `u32` range, and otherwise yields the 4 little-endian bytes. -/
def pack_u32 (key : String) (v : Option PyVal) : Except PyExc (List Nat) :=
  match v with
  | none => .error (.keyError key)
  | some (.int i) =>
    if 0 ≤ i ∧ i < 4294967296 then .ok (le32 i.toNat)
    else .error (.structError "argument out of range")
  | some _ => .error (.structError "required argument is not an integer")

/-- The `cmd_to_bytes` of each command class: opcode byte, then the little-endian
`u32` fields in the fixed per-variant order. -/
def cmd_to_bytes (c : Command) : Except PyExc (List Nat) :=
  match c with
  | .read kw => do
    let a ← pack_u32 "address" kw.address
    let l ← pack_u32 "length" kw.length
    .ok (0x00 :: (a ++ l))
  | .program kw => do
    let a ← pack_u32 "address" kw.address
    .ok (0x01 :: a)
  | .erase kw => do
    let a ← pack_u32 "address" kw.address
    let l ← pack_u32 "length" kw.length
    .ok (0x02 :: (a ++ l))
  | .verify kw => do
    let a ← pack_u32 "address" kw.address
    let l ← pack_u32 "length" kw.length
    .ok (0x03 :: (a ++ l))
  | .reboot _ => .ok [0x04]
  | .confirm _ => .ok [0x05]

/-- The `cmd_get_iobuf` method: only ProgramCommand returns its `data` payload; every other
class inherits the base implementation returning `None`. -/
def cmd_get_iobuf : Command → Option (List Nat)
  | .program kw =>
    match kw.data with
    | some (.bytes b) => some b
    | _ => none
  | _ => none

/-- The `cmd_need_result` method: true only for ReadCommand (`has_result = True`). -/
def cmd_need_result : Command → Bool
  | .read _ => true
  | _ => false

/-- The OTA status record produced by `read_ota_status`. -/
structure OtaStatus where
  busy : Bool
  success : Bool
  code : Nat
deriving DecidableEq, Repr

/-- The `AutoOTAController.read_ota_status` method, as a function of the bytes read from the
"main" attribute: an empty (or absent) read raises the guarded
`RuntimeError("Failed to read OTA status")`; a 1-byte read runs into the
unguarded `status_data[1]` access and raises `IndexError`; otherwise
`busy = bool(byte0)`, `success = (byte1 == 0 and not busy)`, `code = byte1`. -/
def read_ota_status (status_data : List Nat) : Except PyExc OtaStatus :=
  match status_data with
  | [] => .error (.runtimeError "Failed to read OTA status")
  | [_] => .error .indexError
  | b0 :: b1 :: _ =>
    let busy : Bool := b0 != 0
    .ok { busy := busy, success := (b1 == 0 && !busy), code := b1 }

/-! ## The authenticated command exchange (`AutoOTAController.send_command`) -/

/-- One transport operation performed by `send_command` on the attribute session,
in order: payload write to the "buffer" attribute, read of the "challenge"
attribute, write of the signature to the "token" attribute, write of the encoded
command to the "main" attribute, and result read of the "buffer" attribute. -/
inductive TransportOp where
  | writeBuffer (data : List Nat)
  | readChallenge
  | writeToken (data : List Nat)
  | writeMain (data : List Nat)
  | readBuffer
deriving DecidableEq, Repr

/-- The environment of one `send_command` exchange: the CMAC collaborator
(an opaque keyed MAC `mac key message` returning one MAC block), the session
connectivity flag, the controller key (`None` when `--aes-key` was not given),
and the bytes the device answers to the challenge read. -/
structure Exchange where
  mac : List Nat → List Nat → List Nat
  connected : Bool
  key : Option (List Nat)
  challenge : List Nat

/-- Python truthiness of `cmd_iobuf` in `send_command`: `None` and empty
`bytes` are falsy. -/
def iobuf_truthy : Option (List Nat) → Bool
  | none => false
  | some b => b != []

/-- The `AutoOTAController.send_command` method, returning the ordered trace of transport
operations performed together with the outcome.  Mirrors the source step by
step: missing key check, connectivity check, `cmd_validate`, `cmd_to_bytes`
(which can raise `struct.error`), optional payload write, challenge read with
empty-challenge guard, CMAC of the command bytes, CMAC of the payload (or the
all-zero 16-byte placeholder), token = cmd-MAC ‖ payload-MAC ‖ challenge,
signature = MAC of the token written to the "token" attribute, command bytes
written to the "main" attribute, and the optional result read. -/
def send_command (ex : Exchange) (cmd : Command) : List TransportOp × Except PyExc Unit :=
  match ex.key with
  | none =>
    ([], .error (.runtimeError
      "AES key is not set, cannot send command due to authentication requirements"))
  | some key =>
    if !ex.connected then ([], .error (.runtimeError "Device is not connected"))
    else
      match cmd_validate cmd with
      | .error e => ([], .error e)
      | .ok () =>
        match cmd_to_bytes cmd with
        | .error e => ([], .error e)
        | .ok cmd_bytes =>
          let cmd_iobuf := cmd_get_iobuf cmd
          let buf_ops : List TransportOp :=
            if iobuf_truthy cmd_iobuf then [.writeBuffer (cmd_iobuf.getD [])] else []
          let ops₁ := buf_ops ++ [TransportOp.readChallenge]
          if ex.challenge = [] then
            (ops₁, .error (.runtimeError "Failed to read authentication challenge"))
          else
            let cmd_bytes_cmac := ex.mac key cmd_bytes
            let cmd_iobuf_cmac :=
              if iobuf_truthy cmd_iobuf then ex.mac key (cmd_iobuf.getD [])
              else List.replicate 16 0
            let token := cmd_bytes_cmac ++ cmd_iobuf_cmac ++ ex.challenge
            let token_signature := ex.mac key token
            let ops₂ := ops₁ ++ [TransportOp.writeToken token_signature,
                                 TransportOp.writeMain cmd_bytes]
            if cmd_need_result cmd then (ops₂ ++ [TransportOp.readBuffer], .ok ())
            else (ops₂, .ok ())

/-! ## Reboot / Commit flow error classification (`flashtool.py`) -/

/-- Whether an exception is an instance of the transport library error class
(`except BleakError` in `do_cmd_reboot` / `do_cmd_commit`). -/
def is_bleak_error : PyExc → Bool
  | .bleakError _ => true
  | _ => false

/-- How `do_cmd_reboot` / `do_cmd_commit` end. -/
inductive FlowEnd where
  | exitCode (n : Nat)
  | implicitSuccessDisconnect
deriving DecidableEq, Repr

/-- The `try/except` classification shared by `do_cmd_reboot` and
`do_cmd_commit`: a clean `send_command` proceeds to the disconnect and success
log; a `BleakError` logs a failure and exits with code 1; any other exception
is logged as "Seems like the device rebooted successfully (Connection lost)."
and the flow proceeds to the disconnect and success log. -/
def reboot_commit_flow (outcome : Except PyExc Unit) : FlowEnd :=
  match outcome with
  | .ok () => .implicitSuccessDisconnect
  | .error e => if is_bleak_error e then .exitCode 1 else .implicitSuccessDisconnect

/-- The `do_cmd_reboot` flow: issue the Reboot command through `send_command` and apply
the flow classification. -/
def do_cmd_reboot (ex : Exchange) : FlowEnd :=
  reboot_commit_flow (send_command ex (.reboot {})).2

/-- The `do_cmd_commit` flow: issue the Confirm command through `send_command` and apply
the flow classification. -/
def do_cmd_commit (ex : Exchange) : FlowEnd :=
  reboot_commit_flow (send_command ex (.confirm {})).2

/-! ## Chunked read and write loops (`do_cmd_read` / `do_cmd_write`) -/

/-- The `(address, chunk_length)` arguments of the `AutoOTAReadCommand`s issued
by the `while True` loop of `do_cmd_read`: each iteration takes
`chunk_length = min(remain_length, 512)`, advances `address` and decrements
`remain_length` by it, and the loop exits when `remain_length <= 0`. -/
def read_chunks (address remain : Nat) : List (Nat × Nat) :=
  let c := min remain 512
  (address, c) ::
    (if h : remain - c = 0 then [] else read_chunks (address + c) (remain - c))
termination_by remain
decreasing_by
  simp only [c] at h ⊢
  omega

/-- The `(address, payload)` arguments of the `AutoOTAProgramCommand`s issued by
the `while True` loop of `do_cmd_write`, with `data[process:process+c]` slices:
`payload = flash_data[process_length : process_length + chunk_length]`. -/
def write_chunks_aux (data : List Nat) (address process remain : Nat) :
    List (Nat × List Nat) :=
  let c := min remain 512
  (address, (data.drop process).take c) ::
    (if h : remain - c = 0 then []
     else write_chunks_aux data (address + c) (process + c) (remain - c))
termination_by remain
decreasing_by
  simp only [c] at h ⊢
  omega

/-- The `do_cmd_write` loop without a `--length` limit: the loop starts with
`process_length = 0` and `remain_length = len(flash_data)`. -/
def write_chunks (address : Nat) (data : List Nat) : List (Nat × List Nat) :=
  write_chunks_aux data address 0 data.length

/-- Addresses of a chunk list are contiguous and non-overlapping from a start
address: each entry starts where the previous one ended. -/
def chunks_contiguous : Nat → List (Nat × Nat) → Prop
  | _, [] => True
  | a, (a₂, c) :: rest => a₂ = a ∧ chunks_contiguous (a + c) rest

/-! ## Erase / Verify completion wait loop -/

/-- How the completion wait of `do_cmd_erase` / `do_cmd_verify` ends. -/
inductive WaitOutcome where
  | success
  | failure (code : Nat)
  | exhausted
deriving DecidableEq, Repr

/-- The `while True` polling loop of `do_cmd_erase` / `do_cmd_verify`, run on a
scripted sequence of decoded OTA statuses: each iteration reads the status once;
`success` breaks the loop, `busy` emits a spinner tick and polls again, and
anything else is a terminal failure carrying the status code (`sys.exit(1)`
after logging it).  Returns the outcome with the number of status reads
performed; `exhausted` marks a script shorter than the loop consumes. -/
def wait_for_completion : List OtaStatus → WaitOutcome × Nat
  | [] => (.exhausted, 0)
  | s :: rest =>
    if s.success then (.success, 1)
    else if s.busy then
      let r := wait_for_completion rest
      (r.1, r.2 + 1)
    else (.failure s.code, 1)

/-! ## Dual-bank selection and the composite flash workflow (`do_cmd_flash`) -/

/-- One lowercase hexadecimal digit, as produced by Python `bytes.hex()`. -/
def hex_digit (n : Nat) : Char :=
  if n < 10 then Char.ofNat (48 + n) else Char.ofNat (87 + n)

/-- The two lowercase hex characters of one byte. -/
def byte_hex (b : Nat) : List Char := [hex_digit (b / 16), hex_digit (b % 16)]

/-- Python `bytes.hex()` over a byte list, as a character list. -/
def bytes_hex : List Nat → List Char
  | [] => []
  | b :: t => byte_hex b ++ bytes_hex t

/-- Python `bytes.hex()` over a byte list, as a string. -/
def bytes_hex_str (l : List Nat) : String := ⟨bytes_hex l⟩

/-- The `ota_flash_bank` entry of `read_ota_eeprom_info`:
`value.hex() if value else None` over the raw attribute read. -/
def ota_flash_bank_value (raw : Option (List Nat)) : Option String :=
  match raw with
  | some v => if v = [] then none else some (bytes_hex_str v)
  | none => none

/-- Which bank file the flash workflow writes. -/
inductive BankFile where
  | bankA
  | bankB
deriving DecidableEq, Repr

/-- The write target chosen by `do_cmd_flash`: start address, length, and
source file. -/
structure FlashTarget where
  address : Nat
  length : Nat
  filepath : BankFile
deriving DecidableEq, Repr

/-- The bank-selection branch of `do_cmd_flash`: flash-bank value `"a5a5a5a5"`
(device running Bank A) targets `0x00037000`/`0x00036000` with the bank-B file;
`"5a5a5a5a"` (device running Bank B) targets `0x00001000`/`0x00036000` with the
bank-A file; anything else (including a missing value) falls to the
`sys.exit(1)` branch. -/
def flash_bank_select (bank : Option String) : Option FlashTarget :=
  if bank = some "a5a5a5a5" then some ⟨0x00037000, 0x00036000, .bankB⟩
  else if bank = some "5a5a5a5a" then some ⟨0x00001000, 0x00036000, .bankA⟩
  else none

/-- The successive steps of the composite flash workflow. -/
inductive FlashStep where
  | infoRead
  | eraseStep (address length : Nat)
  | writeStep (address : Nat) (source : BankFile)
  | verifyStep (address : Nat) (source : BankFile)
  | commitStep
deriving DecidableEq, Repr

/-- The plan of `do_cmd_flash` as a function of the raw flash-bank attribute
value: the info read happens first; when bank selection fails the workflow exits
fatally (`sys.exit(1)`) without any further step, otherwise it proceeds to
Erase, Write, Verify and Commit on the selected target.  The second component
is `true` exactly on the fatal exit. -/
def do_cmd_flash_plan (raw : Option (List Nat)) : List FlashStep × Bool :=
  match flash_bank_select (ota_flash_bank_value raw) with
  | none => ([.infoRead], true)
  | some t =>
    ([.infoRead, .eraseStep t.address t.length, .writeStep t.address t.filepath,
      .verifyStep t.address t.filepath, .commitStep], false)

instance {ε α : Type} [DecidableEq ε] [DecidableEq α] : DecidableEq (Except ε α) :=
  fun x y =>
    match x, y with
    | .ok a, .ok b =>
      if h : a = b then .isTrue (by rw [h]) else .isFalse (fun hh => h (Except.ok.inj hh))
    | .error a, .error b =>
      if h : a = b then .isTrue (by rw [h]) else .isFalse (fun hh => h (Except.error.inj hh))
    | .ok _, .error _ => .isFalse (fun hh => Except.noConfusion hh)
    | .error _, .ok _ => .isFalse (fun hh => Except.noConfusion hh)

/-! ## Shared concrete collaborator instances used by witnesses -/

/-- A concrete stand-in for the CMAC collaborator: a keyed MAC returning one
16-byte block, used to instantiate `Exchange.mac` in concrete evaluations. -/
def mac_zero : List Nat → List Nat → List Nat := fun _ _ => List.replicate 16 0

/-! ## Claim theorems -/

/-- C5: `read_ota_status` derives the OTA status purely from the bytes read from
the main attribute: `busy = (byte0 ≠ 0)`, `code = byte1`, and
`success = (byte1 = 0 and busy = false)`; bytes `[0x01, 0x00]` decode to
busy, `[0x00, 0x00]` to success, and `[0x00, 0x07]` to a failure with code 7. -/
theorem claim_C5_ota_status_decode :
    (∀ b0 b1 rest s, read_ota_status (b0 :: b1 :: rest) = .ok s →
      (s.busy = true ↔ b0 ≠ 0) ∧ s.code = b1 ∧
      (s.success = true ↔ (b1 = 0 ∧ s.busy = false))) ∧
    read_ota_status [0x01, 0x00] = .ok ⟨true, false, 0⟩ ∧
    read_ota_status [0x00, 0x00] = .ok ⟨false, true, 0⟩ ∧
    read_ota_status [0x00, 0x07] = .ok ⟨false, false, 7⟩ := by
  refine ⟨?_, by decide, by decide, by decide⟩
  intro b0 b1 rest s h
  simp only [read_ota_status, Except.ok.injEq] at h
  subst h
  refine ⟨by simp, rfl, ?_⟩
  simp [and_comm]

/-- Witness for C5 at the concrete read `[0x00, 0x00]`. -/
theorem claim_C5_ota_status_decode_witness :
    (OtaStatus.busy ⟨false, true, 0⟩ = true ↔ (0 : Nat) ≠ 0) ∧
    OtaStatus.code ⟨false, true, 0⟩ = 0 ∧
    (OtaStatus.success ⟨false, true, 0⟩ = true ↔
      ((0 : Nat) = 0 ∧ OtaStatus.busy ⟨false, true, 0⟩ = false)) :=
  claim_C5_ota_status_decode.1 0 0 [] ⟨false, true, 0⟩ (by decide)

/-- C10: a non-empty main-attribute value of exactly 1 byte makes
`read_ota_status` raise an out-of-bounds `IndexError` rather than a guarded
protocol error; only an empty read maps to the explicit
"Failed to read OTA status" failure; any value of at least 2 bytes decodes. -/
theorem claim_C10_ota_status_short_read :
    (∀ b, read_ota_status [b] = .error .indexError) ∧
    read_ota_status [] = .error (.runtimeError "Failed to read OTA status") ∧
    (∀ b0 b1 rest, ∃ s, read_ota_status (b0 :: b1 :: rest) = .ok s) := by
  refine ⟨fun b => rfl, rfl, fun b0 b1 rest => ⟨_, rfl⟩⟩

/-- C8 counterexample: the claim says validation fails for every command with a
negative address, but `cmd_validate` only checks `isinstance(address, int)`:
a ReadCommand with `address = -1` and `length = 4` validates successfully. -/
theorem claim_C8_counterexample :
    cmd_validate (.read ⟨some (.int (-1)), some (.int 4), none⟩) = .ok () := by
  decide

/-- C8 (amended): command validation checks required parameters are present and
of correct type, and that `length` is a positive integer, but the address is
only checked to be an integer, not an unsigned one: Read/Erase/Verify validate
exactly when `address` is an `int` and `length` is a positive `int`; Program
validates exactly when `address` is an `int` and `data` is `bytes`;
Reboot/Confirm always validate; and a negative address passes validation. -/
theorem claim_C8_validation_amended :
    (∀ kw, cmd_validate (.read kw) = .ok () ↔
      ((∃ a, kw.address = some (.int a)) ∧ ∃ l, kw.length = some (.int l) ∧ 0 < l)) ∧
    (∀ kw, cmd_validate (.erase kw) = .ok () ↔
      ((∃ a, kw.address = some (.int a)) ∧ ∃ l, kw.length = some (.int l) ∧ 0 < l)) ∧
    (∀ kw, cmd_validate (.verify kw) = .ok () ↔
      ((∃ a, kw.address = some (.int a)) ∧ ∃ l, kw.length = some (.int l) ∧ 0 < l)) ∧
    (∀ kw, cmd_validate (.program kw) = .ok () ↔
      ((∃ a, kw.address = some (.int a)) ∧ ∃ d, kw.data = some (.bytes d))) ∧
    (∀ kw, cmd_validate (.reboot kw) = .ok ()) ∧
    (∀ kw, cmd_validate (.confirm kw) = .ok ()) ∧
    (∀ a : Int, a < 0 →
      cmd_validate (.read ⟨some (.int a), some (.int 1), none⟩) = .ok ()) := by
  have haux : ∀ (cname : String) (kw : Kwargs), validate_addr_length cname kw = .ok () ↔
      ((∃ a, kw.address = some (.int a)) ∧ ∃ l, kw.length = some (.int l) ∧ 0 < l) := by
    intro cname kw
    obtain ⟨addr, len, data⟩ := kw
    cases addr with
    | none => simp [validate_addr_length]
    | some pa =>
      cases pa <;> simp only [validate_addr_length] <;>
        first
        | (cases len with
           | none => simp
           | some pl =>
             cases pl <;> simp <;> constructor <;> intro h <;> first | omega | simp_all | exact h)
        | simp
  refine ⟨fun kw => haux "ReadCommand" kw, fun kw => haux "EraseCommand" kw,
    fun kw => haux "VerifyCommand" kw, ?_, fun kw => rfl, fun kw => rfl, ?_⟩
  · intro kw
    obtain ⟨addr, len, data⟩ := kw
    cases addr with
    | none => simp [cmd_validate]
    | some pa =>
      cases pa <;> simp only [cmd_validate] <;>
        first
        | (cases data with
           | none => simp
           | some pd => cases pd <;> simp)
        | simp
  · intro a _
    simp [cmd_validate, validate_addr_length]

/-- Witness for C8 (amended): a ReadCommand with a negative address and a
positive length validates. -/
theorem claim_C8_validation_amended_witness :
    cmd_validate (.read ⟨some (.int (-7)), some (.int 1), none⟩) = .ok () :=
  claim_C8_validation_amended.2.2.2.2.2.2 (-7) (by decide)

/-- C9: `send_command` performs no transport operation before its preconditions
hold: with no authentication key it fails with an empty transport trace, and
with a command whose validation fails it fails with an empty transport trace,
so an invalid command is never partially transmitted. -/
theorem claim_C9_send_command_preconditions :
    (∀ mac connected challenge cmd,
      send_command ⟨mac, connected, none, challenge⟩ cmd =
        ([], .error (.runtimeError
          "AES key is not set, cannot send command due to authentication requirements"))) ∧
    (∀ mac challenge key cmd e, cmd_validate cmd = .error e →
      send_command ⟨mac, true, some key, challenge⟩ cmd = ([], .error e)) := by
  constructor
  · intro mac connected challenge cmd
    rfl
  · intro mac challenge key cmd e h
    simp [send_command, h]

/-- Witness for C9: a ReadCommand with no parameters fails validation, and
`send_command` rejects it with an empty transport trace. -/
theorem claim_C9_send_command_preconditions_witness :
    send_command ⟨mac_zero, true, some (List.replicate 16 0), List.replicate 16 1⟩
        (.read {}) =
      ([], .error (.valueError "ReadCommand requires address parameter.")) :=
  claim_C9_send_command_preconditions.2 mac_zero (List.replicate 16 1)
    (List.replicate 16 0) (.read {}) _ rfl

/-- C4 counterexample: the claim says non-disconnect failures abort the
Reboot/Commit flow with a non-zero exit, but the blanket `except Exception`
reclassifies every non-`BleakError` failure as implicit success: with a device
that answers an empty authentication challenge (a failed challenge read, not a
disconnect), `do_cmd_reboot` ends in the implicit-success disconnect path
instead of a non-zero exit. -/
theorem claim_C4_counterexample :
    (send_command ⟨mac_zero, true, some (List.replicate 16 0), []⟩ (.reboot {})).2 =
        .error (.runtimeError "Failed to read authentication challenge") ∧
    do_cmd_reboot ⟨mac_zero, true, some (List.replicate 16 0), []⟩ =
        .implicitSuccessDisconnect := by
  constructor <;> rfl

/-- C4 (amended): in the Reboot and Commit flows a transport-level disconnect
raised while sending the Reboot/Confirm command is reclassified as an implicit
success (the flow logs success and continues to a clean disconnect); a failure
raised through the transport library error class (`BleakError`) aborts with
exit code 1; but every other exception — including non-disconnect failures such
as a missing attribute or a failed challenge read — is also reclassified as an
implicit success rather than aborting. -/
theorem claim_C4_reboot_commit_flow_amended :
    reboot_commit_flow (.error .connectionLost) = .implicitSuccessDisconnect ∧
    (∀ m, reboot_commit_flow (.error (.bleakError m)) = .exitCode 1) ∧
    (∀ e, is_bleak_error e = false →
      reboot_commit_flow (.error e) = .implicitSuccessDisconnect) ∧
    (∀ ex, do_cmd_reboot ex = reboot_commit_flow (send_command ex (.reboot {})).2) ∧
    (∀ ex, do_cmd_commit ex = reboot_commit_flow (send_command ex (.confirm {})).2) := by
  refine ⟨rfl, fun m => rfl, ?_, fun ex => rfl, fun ex => rfl⟩
  intro e h
  simp [reboot_commit_flow, h]

/-- Witness for C4 (amended) at a concrete non-`BleakError` exception. -/
theorem claim_C4_reboot_commit_flow_amended_witness :
    reboot_commit_flow (.error (.valueError "Service with UUID not found")) =
      .implicitSuccessDisconnect :=
  claim_C4_reboot_commit_flow_amended.2.2.1 (.valueError "Service with UUID not found") rfl

/-- The decoded status a busy device reports (main attribute bytes `[1, 0]`). -/
def status_busy : OtaStatus := ⟨true, false, 0⟩

/-- The decoded status a finished device reports (main attribute bytes `[0, 0]`). -/
def status_success : OtaStatus := ⟨false, true, 0⟩

/-- The decoded status of a failed operation with code `c` (bytes `[0, c]`,
`c ≠ 0`). -/
def status_error (c : Nat) : OtaStatus := ⟨false, false, c⟩

/-- A busy read spins: the loop recurses on the rest of the script, counting
one more read. -/
theorem wait_for_completion_busy_cons (rest : List OtaStatus) :
    wait_for_completion (status_busy :: rest) =
      ((wait_for_completion rest).1, (wait_for_completion rest).2 + 1) := by
  simp [wait_for_completion, status_busy]

/-- C7: the completion wait of Erase/Verify reads the status once per iteration
and decides success / spin-on-busy / terminal failure with the code; on the
scripted sequence `[busy, busy, success]` it succeeds after exactly 3 reads, on
`[busy, error 3]` it fails with code 3 after exactly 2 reads; and there is no
timeout or retry bound: any number of busy reads is followed to the terminal
status.  The scripted statuses are the `read_ota_status` decodes of the
corresponding main-attribute bytes. -/
theorem claim_C7_completion_wait :
    wait_for_completion [status_busy, status_busy, status_success] = (.success, 3) ∧
    wait_for_completion [status_busy, status_error 3] = (.failure 3, 2) ∧
    (∀ n, wait_for_completion (List.replicate n status_busy ++ [status_success]) =
      (.success, n + 1)) ∧
    (∀ n c, wait_for_completion (List.replicate n status_busy ++ [status_error c]) =
      (.failure c, n + 1)) ∧
    (∀ s rest, s.success = true → wait_for_completion (s :: rest) = (.success, 1)) ∧
    (∀ s rest, s.success = false → s.busy = true → wait_for_completion (s :: rest) =
      ((wait_for_completion rest).1, (wait_for_completion rest).2 + 1)) ∧
    (∀ s rest, s.success = false → s.busy = false →
      wait_for_completion (s :: rest) = (.failure s.code, 1)) ∧
    read_ota_status [0x01, 0x00] = .ok status_busy ∧
    read_ota_status [0x00, 0x00] = .ok status_success ∧
    (∀ c, c ≠ 0 → read_ota_status [0x00, c] = .ok (status_error c)) := by
  refine ⟨by decide, by decide, ?_, ?_, ?_, ?_, ?_, by decide, by decide, ?_⟩
  · intro n
    induction n with
    | zero => rfl
    | succ k ih =>
      rw [List.replicate_succ, List.cons_append, wait_for_completion_busy_cons, ih]
  · intro n c
    induction n with
    | zero => rfl
    | succ k ih =>
      rw [List.replicate_succ, List.cons_append, wait_for_completion_busy_cons, ih]
  · intro s rest h
    simp [wait_for_completion, h]
  · intro s rest h hb
    simp [wait_for_completion, h, hb]
  · intro s rest h hb
    simp [wait_for_completion, h, hb]
  · intro c hc
    simp [read_ota_status, status_error, hc]

/-- Witness for C7 at a concrete per-iteration decision and decode. -/
theorem claim_C7_completion_wait_witness :
    wait_for_completion [status_error 5] = (.failure 5, 1) ∧
    read_ota_status [0x00, 0x05] = .ok (status_error 5) :=
  ⟨claim_C7_completion_wait.2.2.2.2.2.2.1 (status_error 5) [] rfl rfl,
   claim_C7_completion_wait.2.2.2.2.2.2.2.2.2 5 (by decide)⟩

/-- C3: for every MAC collaborator returning 16-byte blocks, every 16-byte key,
every non-empty challenge and every encodable validated command, the signature
written to the token attribute equals
`MAC(key, MAC(key, cmd_bytes) ‖ P ‖ challenge)`, where `P = MAC(key, payload)`
when a payload was sent and the all-zero 16-byte block otherwise; with a
16-byte challenge the pre-signature token is 48 bytes; and the exchange is a
deterministic function of its inputs. -/
theorem claim_C3_token_signature (mac : List Nat → List Nat → List Nat)
    (hmac : ∀ k m, (mac k m).length = 16)
    (key challenge cmd_bytes : List Nat) (cmd : Command)
    (hkey : key.length = 16) (hch : challenge ≠ [])
    (hval : cmd_validate cmd = .ok ()) (henc : cmd_to_bytes cmd = .ok cmd_bytes) :
    (TransportOp.writeToken (mac key (mac key cmd_bytes ++
        (if iobuf_truthy (cmd_get_iobuf cmd) then mac key ((cmd_get_iobuf cmd).getD [])
         else List.replicate 16 0) ++ challenge)) ∈
      (send_command ⟨mac, true, some key, challenge⟩ cmd).1) ∧
    (challenge.length = 16 →
      (mac key cmd_bytes ++
        (if iobuf_truthy (cmd_get_iobuf cmd) then mac key ((cmd_get_iobuf cmd).getD [])
         else List.replicate 16 0) ++ challenge).length = 48) ∧
    (∀ ex₂ : Exchange, ex₂.mac = mac → ex₂.connected = true → ex₂.key = some key →
      ex₂.challenge = challenge →
      send_command ex₂ cmd = send_command ⟨mac, true, some key, challenge⟩ cmd) := by
  refine ⟨?_, ?_, ?_⟩
  · simp only [send_command, hval, henc, Bool.not_true, Bool.false_eq_true, if_false, hch,
      if_neg hch]
    by_cases hio : iobuf_truthy (cmd_get_iobuf cmd) <;>
      by_cases hres : cmd_need_result cmd <;>
      simp [hio, hres, List.mem_append]
  · intro h16
    by_cases hio : iobuf_truthy (cmd_get_iobuf cmd) <;>
      simp [hio, List.length_append, hmac, h16]
  · intro ex₂ h1 h2 h3 h4
    obtain ⟨m₂, c₂, k₂, ch₂⟩ := ex₂
    simp only at h1 h2 h3 h4
    rw [h1, h2, h3, h4]

/-- Witness for C3 at a concrete MAC, key, challenge and Reboot command. -/
theorem claim_C3_token_signature_witness :
    TransportOp.writeToken (mac_zero (List.replicate 16 0)
        (mac_zero (List.replicate 16 0) [0x04] ++ List.replicate 16 0 ++
          List.replicate 16 1)) ∈
      (send_command ⟨mac_zero, true, some (List.replicate 16 0),
        List.replicate 16 1⟩ (.reboot {})).1 := by
  have h := claim_C3_token_signature mac_zero (fun k m => by simp [mac_zero])
    (List.replicate 16 0) (List.replicate 16 1) [0x04] (.reboot {})
    (by simp) (by simp) rfl rfl
  simpa [cmd_get_iobuf, iobuf_truthy] using h.1

/-! ### Unfolding lemmas for the chunk loops -/

/-- A read remainder of at most 512 bytes is served by one final chunk. -/
theorem read_chunks_le (a r : Nat) (h : r ≤ 512) : read_chunks a r = [(a, r)] := by
  rw [read_chunks]
  have hc : min r 512 = r := by omega
  simp [hc]

/-- A read remainder above 512 bytes starts with a full 512-byte chunk. -/
theorem read_chunks_gt (a r : Nat) (h : 512 < r) :
    read_chunks a r = (a, 512) :: read_chunks (a + 512) (r - 512) := by
  rw [read_chunks]
  have hc : min r 512 = 512 := by omega
  have hnz : r - 512 ≠ 0 := by omega
  simp [hc, hnz]

/-- A write remainder of at most 512 bytes is served by one final slice. -/
theorem write_chunks_aux_le (data : List Nat) (a p r : Nat) (h : r ≤ 512) :
    write_chunks_aux data a p r = [(a, (data.drop p).take r)] := by
  rw [write_chunks_aux]
  have hc : min r 512 = r := by omega
  simp [hc]

/-- A write remainder above 512 bytes starts with a full 512-byte slice. -/
theorem write_chunks_aux_gt (data : List Nat) (a p r : Nat) (h : 512 < r) :
    write_chunks_aux data a p r =
      (a, (data.drop p).take 512) :: write_chunks_aux data (a + 512) (p + 512) (r - 512) := by
  rw [write_chunks_aux]
  have hc : min r 512 = 512 := by omega
  have hnz : r - 512 ≠ 0 := by omega
  simp [hc, hnz]

/-! ### Read-loop invariants -/

/-- The chunk sizes of the read loop sum exactly to the requested length. -/
theorem read_chunks_sum (a r : Nat) : ((read_chunks a r).map Prod.snd).sum = r := by
  induction r using Nat.strong_induction_on generalizing a with
  | _ r ih =>
    by_cases h : r ≤ 512
    · rw [read_chunks_le a r h]
      simp
    · rw [read_chunks_gt a r (by omega)]
      have := ih (r - 512) (by omega) (a + 512)
      simp only [List.map_cons, List.sum_cons, this]
      omega

/-- For a positive length the read loop issues exactly `⌈length / 512⌉`
chunks. -/
theorem read_chunks_length (a r : Nat) (h : 0 < r) :
    (read_chunks a r).length = (r + 511) / 512 := by
  induction r using Nat.strong_induction_on generalizing a with
  | _ r ih =>
    by_cases hr : r ≤ 512
    · rw [read_chunks_le a r hr]
      simp only [List.length_singleton]
      omega
    · rw [read_chunks_gt a r (by omega)]
      have := ih (r - 512) (by omega) (a + 512) (by omega)
      simp only [List.length_cons, this]
      omega

/-- The read-loop chunks are contiguous and non-overlapping from the start
address. -/
theorem read_chunks_contiguous (a r : Nat) : chunks_contiguous a (read_chunks a r) := by
  induction r using Nat.strong_induction_on generalizing a with
  | _ r ih =>
    by_cases h : r ≤ 512
    · rw [read_chunks_le a r h]
      exact ⟨rfl, trivial⟩
    · rw [read_chunks_gt a r (by omega)]
      exact ⟨rfl, ih (r - 512) (by omega) (a + 512)⟩

/-- Closed form of the read loop: the `i`-th chunk starts at `address + 512⬝i`
and has size `min (remaining, 512)` where `remaining = length − 512⬝i`. -/
theorem read_chunks_getD (a r i : Nat) (h : i < (read_chunks a r).length) :
    (read_chunks a r).getD i (0, 0) = (a + 512 * i, min (r - 512 * i) 512) := by
  induction r using Nat.strong_induction_on generalizing a i with
  | _ r ih =>
    by_cases hr : r ≤ 512
    · rw [read_chunks_le a r hr] at h ⊢
      simp only [List.length_singleton] at h
      have hi : i = 0 := by omega
      subst hi
      simp only [List.getD_cons_zero, Nat.mul_zero, Nat.add_zero, Nat.sub_zero]
      rw [min_eq_left hr]
    · rw [read_chunks_gt a r (by omega)] at h ⊢
      cases i with
      | zero =>
        simp only [List.getD_cons_zero, Nat.mul_zero, Nat.add_zero, Nat.sub_zero]
        rw [min_eq_right (by omega)]
      | succ j =>
        simp only [List.length_cons, Nat.succ_lt_succ_iff] at h
        simp only [List.getD_cons_succ]
        rw [ih (r - 512) (by omega) (a + 512) j h]
        have h1 : a + 512 + 512 * j = a + 512 * (j + 1) := by ring
        have h2 : r - 512 - 512 * j = r - 512 * (j + 1) := by omega
        rw [h1, h2]

/-! ### Write-loop invariants -/

/-- The concatenation of the write-loop payload slices from offset `p` with
remainder `r` is the corresponding slice of the source. -/
theorem write_chunks_aux_join (data : List Nat) (a p r : Nat) :
    ((write_chunks_aux data a p r).map Prod.snd).join = (data.drop p).take r := by
  induction r using Nat.strong_induction_on generalizing a p with
  | _ r ih =>
    by_cases h : r ≤ 512
    · rw [write_chunks_aux_le data a p r h]
      simp
    · rw [write_chunks_aux_gt data a p r (by omega)]
      simp only [List.map_cons, List.join_cons, ih (r - 512) (by omega) (a + 512) (p + 512)]
      have hd : data.drop (p + 512) = (data.drop p).drop 512 := by
        rw [List.drop_drop]
      have hm : r = 512 + (r - 512) := by omega
      have hsplit : (data.drop p).take r =
          (data.drop p).take 512 ++ ((data.drop p).drop 512).take (r - 512) := by
        rw [← List.take_add, ← hm]
      rw [hd, hsplit]

/-- The write loop reassembles the source buffer exactly: no reordering, no
gaps, no overlap. -/
theorem write_chunks_join (a : Nat) (data : List Nat) :
    ((write_chunks a data).map Prod.snd).join = data := by
  rw [write_chunks, write_chunks_aux_join]
  simp

/-- The write loop issues exactly `⌈len / 512⌉` Program commands. -/
theorem write_chunks_aux_length (data : List Nat) (a p r : Nat) (h : 0 < r) :
    (write_chunks_aux data a p r).length = (r + 511) / 512 := by
  induction r using Nat.strong_induction_on generalizing a p with
  | _ r ih =>
    by_cases hr : r ≤ 512
    · rw [write_chunks_aux_le data a p r hr]
      simp only [List.length_singleton]
      omega
    · rw [write_chunks_aux_gt data a p r (by omega)]
      have := ih (r - 512) (by omega) (a + 512) (p + 512) (by omega)
      simp only [List.length_cons, this]
      omega

/-- Closed form of the write loop from offset `p`: the `i`-th command writes to
`address + 512⬝i` the slice of the source starting at `p + 512⬝i`, of at most
512 bytes. -/
theorem write_chunks_aux_getD (data : List Nat) (a p r i : Nat)
    (h : i < (write_chunks_aux data a p r).length) (hpr : p + r = data.length) :
    (write_chunks_aux data a p r).getD i (0, []) =
      (a + 512 * i, (data.drop (p + 512 * i)).take 512) := by
  induction r using Nat.strong_induction_on generalizing a p i with
  | _ r ih =>
    by_cases hr : r ≤ 512
    · rw [write_chunks_aux_le data a p r hr] at h ⊢
      simp only [List.length_singleton] at h
      have hi : i = 0 := by omega
      subst hi
      simp only [List.getD_cons_zero, Nat.mul_zero, Nat.add_zero]
      congr 1
      have hlen : (data.drop p).length = r := by
        simp [List.length_drop]
        omega
      rw [List.take_eq_take]
      omega
    · rw [write_chunks_aux_gt data a p r (by omega)] at h ⊢
      cases i with
      | zero =>
        simp
      | succ j =>
        simp only [List.length_cons, Nat.succ_lt_succ_iff] at h
        simp only [List.getD_cons_succ]
        rw [ih (r - 512) (by omega) (a + 512) (p + 512) j h (by omega)]
        have h1 : a + 512 + 512 * j = a + 512 * (j + 1) := by ring
        have h2 : p + 512 + 512 * j = p + 512 * (j + 1) := by ring
        rw [h1, h2]

/-- C6: for every `(address, length)` with `length > 0` the chunked read loop
issues exactly `⌈length / 512⌉` Read commands whose sizes sum exactly to
`length`, whose addresses are contiguous and non-overlapping starting at
`address`, and whose `i`-th chunk has size `min (remaining, 512)`; and the
chunked write loop over a non-empty source issues Program commands whose
payloads are the exact in-order 512-byte (or smaller final) slices of the
source, so that the concatenation of all payloads equals the source buffer. -/
theorem claim_C6_chunked_transfer :
    (∀ a L, 0 < L →
      (read_chunks a L).length = (L + 511) / 512 ∧
      ((read_chunks a L).map Prod.snd).sum = L ∧
      chunks_contiguous a (read_chunks a L) ∧
      (∀ i, i < (read_chunks a L).length →
        (read_chunks a L).getD i (0, 0) = (a + 512 * i, min (L - 512 * i) 512))) ∧
    (∀ a (data : List Nat), data ≠ [] →
      ((write_chunks a data).map Prod.snd).join = data ∧
      (write_chunks a data).length = (data.length + 511) / 512 ∧
      (∀ i, i < (write_chunks a data).length →
        (write_chunks a data).getD i (0, []) =
          (a + 512 * i, (data.drop (512 * i)).take 512))) := by
  constructor
  · intro a L hL
    exact ⟨read_chunks_length a L hL, read_chunks_sum a L, read_chunks_contiguous a L,
      fun i hi => read_chunks_getD a L i hi⟩
  · intro a data hdata
    refine ⟨write_chunks_join a data, ?_, ?_⟩
    · rw [write_chunks]
      exact write_chunks_aux_length data a 0 data.length (by
        cases data with
        | nil => exact absurd rfl hdata
        | cons x t => simp)
    · intro i hi
      rw [write_chunks] at hi ⊢
      have := write_chunks_aux_getD data a 0 data.length i hi (by omega)
      simpa using this

/-- Witness for C6 at a concrete 1030-byte read and a concrete 520-byte
write. -/
theorem claim_C6_chunked_transfer_witness :
    ((read_chunks 4096 1030).length = 3 ∧
      ((read_chunks 4096 1030).map Prod.snd).sum = 1030 ∧
      chunks_contiguous 4096 (read_chunks 4096 1030)) ∧
    ((write_chunks 4096 (List.replicate 520 7)).map Prod.snd).join =
      List.replicate 520 7 := by
  have hr := claim_C6_chunked_transfer.1 4096 1030 (by omega)
  have hw := claim_C6_chunked_transfer.2 4096 (List.replicate 520 7)
    (List.ne_nil_of_length_pos (by rw [List.length_replicate]; omega))
  exact ⟨⟨hr.1, hr.2.1, hr.2.2.1⟩, hw.1⟩

/-- C2: every validated command with `u32`-representable fields encodes to
exactly the opcode byte followed by its little-endian `u32` fields in fixed
per-variant order — Read/Erase/Verify as `[opcode][address][length]`, Program
as `[opcode][address]` with no length field, Reboot/Confirm as the single
opcode byte — and in particular `Read(0x1000, 256)` encodes to
`00 00 10 00 00 00 01 00 00`, `Program(0x2000)` to `01 00 20 00 00`, and
`Reboot` to `04`. -/
theorem claim_C2_wire_encoding :
    (∀ kw (a l : Int), cmd_validate (.read kw) = .ok () →
      kw.address = some (.int a) → kw.length = some (.int l) →
      0 ≤ a → a < 4294967296 → l < 4294967296 →
      cmd_to_bytes (.read kw) = .ok (0x00 :: (le32 a.toNat ++ le32 l.toNat))) ∧
    (∀ kw (a l : Int), cmd_validate (.erase kw) = .ok () →
      kw.address = some (.int a) → kw.length = some (.int l) →
      0 ≤ a → a < 4294967296 → l < 4294967296 →
      cmd_to_bytes (.erase kw) = .ok (0x02 :: (le32 a.toNat ++ le32 l.toNat))) ∧
    (∀ kw (a l : Int), cmd_validate (.verify kw) = .ok () →
      kw.address = some (.int a) → kw.length = some (.int l) →
      0 ≤ a → a < 4294967296 → l < 4294967296 →
      cmd_to_bytes (.verify kw) = .ok (0x03 :: (le32 a.toNat ++ le32 l.toNat))) ∧
    (∀ kw (a : Int), cmd_validate (.program kw) = .ok () →
      kw.address = some (.int a) → 0 ≤ a → a < 4294967296 →
      cmd_to_bytes (.program kw) = .ok (0x01 :: le32 a.toNat)) ∧
    (∀ kw, cmd_to_bytes (.reboot kw) = .ok [0x04]) ∧
    (∀ kw, cmd_to_bytes (.confirm kw) = .ok [0x05]) ∧
    cmd_to_bytes (.read ⟨some (.int 0x1000), some (.int 256), none⟩) =
      .ok [0x00, 0x00, 0x10, 0x00, 0x00, 0x00, 0x01, 0x00, 0x00] ∧
    cmd_to_bytes (.program ⟨some (.int 0x2000), none, some (.bytes [0x00])⟩) =
      .ok [0x01, 0x00, 0x20, 0x00, 0x00] ∧
    cmd_to_bytes (.reboot {}) = .ok [0x04] := by
  have hlen : ∀ (cname : String) kw (l : Int), validate_addr_length cname kw = .ok () →
      kw.length = some (.int l) → 0 ≤ l := by
    intro cname kw l hval hl
    obtain ⟨addr, len, data⟩ := kw
    simp only at hl
    subst hl
    cases addr with
    | none => simp [validate_addr_length] at hval
    | some pa =>
      cases pa <;> simp [validate_addr_length] at hval
      omega
  have hpack : ∀ (key : String) (a : Int), 0 ≤ a → a < 4294967296 →
      pack_u32 key (some (.int a)) = .ok (le32 a.toNat) := by
    intro key a h1 h2
    simp [pack_u32, h1, h2]
  refine ⟨?_, ?_, ?_, ?_, fun kw => rfl, fun kw => rfl, by decide, by decide, rfl⟩
  · intro kw a l hval hadr hl ha0 ha1 hl1
    simp only [cmd_to_bytes]
    rw [hadr, hl, hpack "address" a ha0 ha1,
      hpack "length" l (hlen "ReadCommand" kw l hval hl) hl1]
    rfl
  · intro kw a l hval hadr hl ha0 ha1 hl1
    simp only [cmd_to_bytes]
    rw [hadr, hl, hpack "address" a ha0 ha1,
      hpack "length" l (hlen "EraseCommand" kw l hval hl) hl1]
    rfl
  · intro kw a l hval hadr hl ha0 ha1 hl1
    simp only [cmd_to_bytes]
    rw [hadr, hl, hpack "address" a ha0 ha1,
      hpack "length" l (hlen "VerifyCommand" kw l hval hl) hl1]
    rfl
  · intro kw a hval hadr ha0 ha1
    simp only [cmd_to_bytes]
    rw [hadr, hpack "address" a ha0 ha1]
    rfl

/-- Witness for C2 at the concrete `Read(0x1000, 256)`. -/
theorem claim_C2_wire_encoding_witness :
    cmd_to_bytes (.read ⟨some (.int 0x1000), some (.int 256), none⟩) =
      .ok (0x00 :: (le32 (Int.toNat 0x1000) ++ le32 (Int.toNat 256))) :=
  claim_C2_wire_encoding.1 ⟨some (.int 0x1000), some (.int 256), none⟩ 0x1000 256
    (by decide) rfl rfl (by decide) (by decide) (by decide)

/-! ### Injectivity of the hex view of the flash-bank bytes -/

/-- The function `hex_digit` is injective on digit values. -/
theorem hex_digit_inj : ∀ m, m < 16 → ∀ n, n < 16 → hex_digit m = hex_digit n → m = n := by
  decide

/-- The function `byte_hex` is injective on byte values. -/
theorem byte_hex_inj (b : Nat) (hb : b < 256) (c : Nat) (hc : c < 256)
    (h : byte_hex b = byte_hex c) : b = c := by
  simp only [byte_hex, List.cons.injEq, and_true] at h
  have h1 := hex_digit_inj (b / 16) (by omega) (c / 16) (by omega) h.1
  have h2 := hex_digit_inj (b % 16) (by omega) (c % 16) (by omega) h.2
  omega

/-- The function `bytes_hex` is injective on byte lists. -/
theorem bytes_hex_inj : ∀ (u v : List Nat), (∀ b ∈ u, b < 256) → (∀ b ∈ v, b < 256) →
    bytes_hex u = bytes_hex v → u = v := by
  intro u
  induction u with
  | nil =>
    intro v _ _ h
    cases v with
    | nil => rfl
    | cons c t => simp [bytes_hex, byte_hex] at h
  | cons b t ih =>
    intro v hu hv h
    cases v with
    | nil => simp [bytes_hex, byte_hex] at h
    | cons c s =>
      simp only [bytes_hex, byte_hex, List.cons_append, List.nil_append,
        List.cons.injEq] at h
      obtain ⟨h1, h2, h3⟩ := h
      have hb : b < 256 := hu b (by simp)
      have hc : c < 256 := hv c (by simp)
      have hbc : b = c := byte_hex_inj b hb c hc (by simp [byte_hex, h1, h2])
      have hts : t = s :=
        ih s (fun x hx => hu x (by simp [hx])) (fun x hx => hv x (by simp [hx])) h3
      rw [hbc, hts]

/-- A byte list whose hex view is `"a5a5a5a5"` is `A5 A5 A5 A5`. -/
theorem bytes_hex_str_marker_a (v : List Nat) (hv : ∀ b ∈ v, b < 256)
    (h : bytes_hex_str v = "a5a5a5a5") : v = [0xa5, 0xa5, 0xa5, 0xa5] := by
  apply bytes_hex_inj v [0xa5, 0xa5, 0xa5, 0xa5] hv (by decide)
  have hd : bytes_hex v = "a5a5a5a5".data := congrArg String.data h
  rw [hd]
  decide

/-- A byte list whose hex view is `"5a5a5a5a"` is `5A 5A 5A 5A`. -/
theorem bytes_hex_str_marker_b (v : List Nat) (hv : ∀ b ∈ v, b < 256)
    (h : bytes_hex_str v = "5a5a5a5a") : v = [0x5a, 0x5a, 0x5a, 0x5a] := by
  apply bytes_hex_inj v [0x5a, 0x5a, 0x5a, 0x5a] hv (by decide)
  have hd : bytes_hex v = "5a5a5a5a".data := congrArg String.data h
  rw [hd]
  decide

/-- C1: in the composite flash workflow, a raw flash-bank read of
`A5 A5 A5 A5` (hex view `"a5a5a5a5"`) targets address `0x00037000` with length
`0x00036000` and the bank-B file; `5A 5A 5A 5A` (hex view `"5a5a5a5a"`)
targets address `0x00001000` with length `0x00036000` and the bank-A file;
and any other 4-byte value makes the workflow exit fatally with no Erase step
ever issued. -/
theorem claim_C1_flash_bank_selection :
    do_cmd_flash_plan (some [0xa5, 0xa5, 0xa5, 0xa5]) =
      ([.infoRead, .eraseStep 0x00037000 0x00036000, .writeStep 0x00037000 .bankB,
        .verifyStep 0x00037000 .bankB, .commitStep], false) ∧
    do_cmd_flash_plan (some [0x5a, 0x5a, 0x5a, 0x5a]) =
      ([.infoRead, .eraseStep 0x00001000 0x00036000, .writeStep 0x00001000 .bankA,
        .verifyStep 0x00001000 .bankA, .commitStep], false) ∧
    (∀ v : List Nat, v.length = 4 → (∀ b ∈ v, b < 256) →
      v ≠ [0xa5, 0xa5, 0xa5, 0xa5] → v ≠ [0x5a, 0x5a, 0x5a, 0x5a] →
      (do_cmd_flash_plan (some v)).2 = true ∧
      ∀ a l, FlashStep.eraseStep a l ∉ (do_cmd_flash_plan (some v)).1) := by
  refine ⟨by decide, by decide, ?_⟩
  intro v hlen hv hna hnb
  have hvne : v ≠ [] := by
    intro hnil
    rw [hnil] at hlen
    simp at hlen
  have hsel : flash_bank_select (ota_flash_bank_value (some v)) = none := by
    simp only [ota_flash_bank_value, if_neg hvne, flash_bank_select]
    rw [if_neg, if_neg]
    · intro hcontra
      exact hnb (bytes_hex_str_marker_b v hv (Option.some.inj hcontra))
    · intro hcontra
      exact hna (bytes_hex_str_marker_a v hv (Option.some.inj hcontra))
  constructor
  · simp [do_cmd_flash_plan, hsel]
  · intro a l hmem
    simp [do_cmd_flash_plan, hsel] at hmem

/-- Witness for C1 at the concrete other value `00 01 02 03`. -/
theorem claim_C1_flash_bank_selection_witness :
    (do_cmd_flash_plan (some [0, 1, 2, 3])).2 = true ∧
    ∀ a l, FlashStep.eraseStep a l ∉ (do_cmd_flash_plan (some [0, 1, 2, 3])).1 :=
  claim_C1_flash_bank_selection.2.2 [0, 1, 2, 3] (by decide) (by decide)
    (by decide) (by decide)

end AutoOTA
